import Mathlib

/-!
Verification development for the proxyfs repository: an intercepting HTTP
proxy controlled through a FUSE filesystem.  The definitions below are a
shallow embedding of the Go sources: typed value files (`nodebool.go`,
`nodeint.go`, `nodestring.go`, `noderegexp.go`, `nodeurl.go`, `Int64File`),
the body/raw/queue/message directory nodes (`http.go` variants), and the
proxy core (`proxy.go`).  Text and byte slices are modelled as `List Char`
(the repository only manipulates ASCII protocol text); Go `int`/`int64`
cells are modelled as `Int` with the 64-bit range made explicit where the
standard library enforces it; fallible operations return `Except`.
-/

/-- Kernel-visible error codes used by the sources (`bazil.org/fuse` errno
constants `ENOENT`, `EPERM`, `ERANGE`, `ENODATA`). -/
inductive FuseErr where
  | ENOENT
  | EPERM
  | ERANGE
  | ENODATA
deriving DecidableEq, Repr

/-- Decidable equality for handler results, used to evaluate the theorems
below on concrete inputs. -/
instance exceptDecEq {ε α : Type} [DecidableEq ε] [DecidableEq α] :
    DecidableEq (Except ε α) := fun x y =>
  match x, y with
  | .ok a, .ok b =>
    if h : a = b then isTrue (by rw [h])
    else isFalse (by intro hc; cases hc; exact h rfl)
  | .ok _, .error _ => isFalse (by intro hc; cases hc)
  | .error _, .ok _ => isFalse (by intro hc; cases hc)
  | .error e, .error f =>
    if h : e = f then isTrue (by rw [h])
    else isFalse (by intro hc; cases hc; exact h rfl)

/-- Byte strings handled by the filesystem nodes.  Go `[]byte` and `string`
values are modelled as lists of characters. -/
abbrev Bytes := List Char

/-- Model of Go `unicode.IsSpace` (the predicate underlying both
`strings.TrimSpace` and `bytes.TrimSpace`): the ASCII whitespace bytes plus
the Unicode `White_Space` code points recognised by the Go standard
library. -/
def goIsSpace (c : Char) : Bool :=
  c.toNat = 0x20 || c.toNat = 0x9 || c.toNat = 0xA || c.toNat = 0xB ||
  c.toNat = 0xC || c.toNat = 0xD || c.toNat = 0x85 || c.toNat = 0xA0 ||
  c.toNat = 0x1680 || (0x2000 ≤ c.toNat && c.toNat ≤ 0x200A) ||
  c.toNat = 0x2028 || c.toNat = 0x2029 || c.toNat = 0x202F ||
  c.toNat = 0x205F || c.toNat = 0x3000

/-- Model of Go `strings.TrimSpace` / `bytes.TrimSpace`: drop whitespace
from both ends of the input. -/
def goTrimSpace (s : Bytes) : Bytes :=
  ((s.dropWhile goIsSpace).reverse.dropWhile goIsSpace).reverse

/-- Decimal digit characters, as produced by Go `strconv` formatting. -/
def digitChar (d : Nat) : Char :=
  match d with
  | 0 => '0' | 1 => '1' | 2 => '2' | 3 => '3' | 4 => '4'
  | 5 => '5' | 6 => '6' | 7 => '7' | 8 => '8' | _ => '9'

/-- Value of a decimal digit character: Go's `'0' <= c && c <= '9'` test
with `c - '0'`, `none` on any other character. -/
def digitVal (c : Char) : Option Nat :=
  if 48 ≤ c.toNat ∧ c.toNat ≤ 57 then some (c.toNat - 48) else none

/-- Digit-accumulation loop of Go `strconv.ParseUint` (base 10): fold
`n = n*10 + d` over the characters, failing on any non-digit. -/
def parseNatCore : Bytes → Nat → Option Nat
  | [], acc => some acc
  | c :: cs, acc =>
    match digitVal c with
    | some d => parseNatCore cs (10 * acc + d)
    | none => none

/-- Unsigned decimal parse: Go `strconv.ParseUint(s, 10, _)` before the
range check; the empty string is a syntax error. -/
def parseNatDigits (s : Bytes) : Option Nat :=
  if s = [] then none else parseNatCore s 0

/-- Fuel-indexed decimal rendering: most significant digit first, by
repeated division by 10 (the fuel makes the recursion structural; `fuel > n`
always suffices). -/
def natCharsAux : Nat → Nat → Bytes
  | 0, _ => []
  | fuel + 1, n =>
    if n < 10 then [digitChar n]
    else natCharsAux fuel (n / 10) ++ [digitChar (n % 10)]

/-- Canonical decimal rendering of a natural number (no sign, no leading
zeroes; `0` renders as `"0"`). -/
def natChars (n : Nat) : Bytes := natCharsAux (n + 1) n

/-- Model of Go `strconv.ParseInt(s, 10, 64)`: optional leading `+`/`-`
sign, decimal digits, and the int64 range check.  Syntax errors and range
overflows both make Go return a non-nil error, which the repository maps
to `ERANGE`; both are modelled as `none`. -/
def strconvParseInt (s : Bytes) : Option Int :=
  match s with
  | [] => none
  | c :: rest =>
    if c = '+' then
      match parseNatDigits rest with
      | none => none
      | some n => if n ≤ 2 ^ 63 - 1 then some (n : Int) else none
    else if c = '-' then
      match parseNatDigits rest with
      | none => none
      | some n => if n ≤ 2 ^ 63 then some (-(n : Int)) else none
    else
      match parseNatDigits (c :: rest) with
      | none => none
      | some n => if n ≤ 2 ^ 63 - 1 then some (n : Int) else none

/-- Model of Go `strconv.Atoi`: on the 64-bit platforms targeted by the
repository this is `ParseInt(s, 10, 64)` narrowed to `int`. -/
def strconvAtoi (s : Bytes) : Option Int := strconvParseInt s

/-- Model of Go `strconv.Itoa`: canonical decimal rendering with a leading
`-` for negative values. -/
def strconvItoa (x : Int) : Bytes :=
  if x < 0 then '-' :: natChars (-x).toNat else natChars x.toNat

/-- Model of Go `strconv.FormatInt(x, 10)`, identical to `Itoa` on 64-bit
values. -/
def strconvFormatInt (x : Int) : Bytes := strconvItoa x

/-- Result of a FUSE write handler: the backing cell after the call paired
with either the consumed byte count (`resp.Size`) or the errno returned.
Error paths in the sources return before touching the cell, so they carry
the unchanged cell. -/
abbrev WriteRes (α : Type) := α × Except FuseErr Nat

/-- BoolFile.ReadAll (`nodebool.go`): permission check on the read bits,
then render the cell as `"1"` or `"0"`. -/
def BoolFile.ReadAll (mode : Nat) (cell : Bool) : Except FuseErr Bytes :=
  if mode &&& 0o444 = 0 then .error .EPERM
  else if cell then .ok ['1'] else .ok ['0']

/-- BoolFile.Write (`nodebool.go`): permission check on the write bits,
trim the input, accept exactly `"0"` and `"1"`, reporting the full input
length consumed; anything else is `ERANGE` with the cell untouched. -/
def BoolFile.Write (mode : Nat) (cell : Bool) (data : Bytes) : WriteRes Bool :=
  if mode &&& 0o222 = 0 then (cell, .error .EPERM)
  else
    let c := goTrimSpace data
    if c = ['0'] then (false, .ok data.length)
    else if c = ['1'] then (true, .ok data.length)
    else (cell, .error .ERANGE)

/-- IntFile.ReadAll (`nodeint.go`): render the cell with `strconv.Itoa`. -/
def IntFile.ReadAll (mode : Nat) (cell : Int) : Except FuseErr Bytes :=
  if mode &&& 0o444 = 0 then .error .EPERM
  else .ok (strconvItoa cell)

/-- IntFile.Write (`nodeint.go`): trim, `strconv.Atoi`, store the parsed
value; a parse error yields `ERANGE` with the cell untouched. -/
def IntFile.Write (mode : Nat) (cell : Int) (data : Bytes) : WriteRes Int :=
  if mode &&& 0o222 = 0 then (cell, .error .EPERM)
  else
    match strconvAtoi (goTrimSpace data) with
    | none => (cell, .error .ERANGE)
    | some i => (i, .ok data.length)

/-- Int64File.ReadAll (`nodeint64.go` part): render the cell with
`strconv.FormatInt(_, 10)`. -/
def Int64File.ReadAll (mode : Nat) (cell : Int) : Except FuseErr Bytes :=
  if mode &&& 0o444 = 0 then .error .EPERM
  else .ok (strconvFormatInt cell)

/-- Int64File.Write (`nodeint64.go` part): trim,
`strconv.ParseInt(_, 10, 64)`, store; parse error yields `ERANGE` with the
cell untouched. -/
def Int64File.Write (mode : Nat) (cell : Int) (data : Bytes) : WriteRes Int :=
  if mode &&& 0o222 = 0 then (cell, .error .EPERM)
  else
    match strconvParseInt (goTrimSpace data) with
    | none => (cell, .error .ERANGE)
    | some i => (i, .ok data.length)

/-- StringFile.ReadAll (`nodestring.go`): return the cell verbatim. -/
def StringFile.ReadAll (mode : Nat) (cell : Bytes) : Except FuseErr Bytes :=
  if mode &&& 0o444 = 0 then .error .EPERM
  else .ok cell

/-- StringFile.Write (`nodestring.go`): trim the input into the cell and
report the full input length; no parse step, so no failure besides the
permission check. -/
def StringFile.Write (mode : Nat) (cell : Bytes) (data : Bytes) : WriteRes Bytes :=
  if mode &&& 0o222 = 0 then (cell, .error .EPERM)
  else (goTrimSpace data, .ok data.length)

/-- Compiled regular expression, modelled by the property the repository
relies on: `regexp.Regexp.String` returns the source text the value was
compiled from. -/
structure GoRegexp where
  source : Bytes
deriving DecidableEq, Repr

/-- Model of Go `regexp.Compile`: which patterns compile is a parameter
(`valid`); on success the resulting value's `String()` is the source
pattern, as guaranteed by the Go standard library. -/
def regexpCompile (valid : Bytes → Bool) (s : Bytes) : Option GoRegexp :=
  if valid s then some { source := s } else none

/-- RegexpFile.ReadAll (`noderegexp.go`): render the cell via
`(*rf.Data).String()`, i.e. its source pattern. -/
def RegexpFile.ReadAll (mode : Nat) (cell : GoRegexp) : Except FuseErr Bytes :=
  if mode &&& 0o444 = 0 then .error .EPERM
  else .ok cell.source

/-- RegexpFile.Write (`noderegexp.go`): trim, `regexp.Compile`, store the
compiled value; a compile error yields `ERANGE` with the cell untouched. -/
def RegexpFile.Write (valid : Bytes → Bool) (mode : Nat) (cell : GoRegexp)
    (data : Bytes) : WriteRes GoRegexp :=
  if mode &&& 0o222 = 0 then (cell, .error .EPERM)
  else
    match regexpCompile valid (goTrimSpace data) with
    | none => (cell, .error .ERANGE)
    | some r => (r, .ok data.length)

/-- URL value, modelled by its `String()` rendering (the only view of a
`url.URL` the repository's file nodes expose). -/
structure GoURL where
  str : Bytes
deriving DecidableEq, Repr

/-- URLFile.ReadAll (`nodeurl.go`): render the cell via `f.Data.String()`. -/
def URLFile.ReadAll (mode : Nat) (cell : GoURL) : Except FuseErr Bytes :=
  if mode &&& 0o444 = 0 then .error .EPERM
  else .ok cell.str

/-- URLFile.Write (`nodeurl.go`): trim, `url.Parse`, store the parsed
value; a parse error yields `ERANGE` with the cell untouched.  `url.Parse`
itself is Go standard library and is abstracted as the `urlParse`
parameter. -/
def URLFile.Write (urlParse : Bytes → Option GoURL) (mode : Nat)
    (cell : GoURL) (data : Bytes) : WriteRes GoURL :=
  if mode &&& 0o222 = 0 then (cell, .error .EPERM)
  else
    match urlParse (goTrimSpace data) with
    | none => (cell, .error .ERANGE)
    | some u => (u, .ok data.length)

/-- State of an `io.ReadCloser` body stream: the bytes a full drain would
still deliver.  After any operation of the repository the stream is an
`ioutil.NopCloser` over a `bytes.Buffer`, which never errors. -/
structure GoReader where
  remaining : Bytes
deriving DecidableEq, Repr

/-- Model of `ioutil.ReadAll(io.TeeReader(r, buf))`: drain `r` to
exhaustion, appending every byte read to `buf`; returns the drained bytes
and the final buffer contents. -/
def ioutilReadAllTee (r : GoReader) (buf : Bytes) : Bytes × Bytes :=
  (r.remaining, buf ++ r.remaining)

/-- httpBodyFile.readCopy (current `http.go` variant): drain the body via
a tee into a fresh buffer and replace `*bf.Body` with a `NopCloser` over
that buffer, returning the drained bytes. -/
def HttpV2.httpBodyFile.readCopy (body : GoReader) : Bytes × GoReader :=
  let buf : Bytes := []
  let res := ioutilReadAllTee body buf
  (res.1, { remaining := res.2 })

/-- httpBodyFile.ValRead (current `http.go` variant): `readCopy`, mapping
a drain error to `ENODATA`; buffer-backed streams never error, so the
model always succeeds.  Returns the bytes read and the replaced body. -/
def HttpV2.httpBodyFile.ValRead (body : GoReader) :
    Except FuseErr Bytes × GoReader :=
  let res := HttpV2.httpBodyFile.readCopy body
  (.ok res.1, res.2)

/-- httpBodyFile.ValWrite (current `http.go` variant): trim the input and
replace the body with a fresh reader over the trimmed bytes; the consumed
size is the full input length.  This variant carries no content-length
pointer. -/
def HttpV2.httpBodyFile.ValWrite (body : GoReader) (data : Bytes) :
    GoReader × Nat :=
  let b := goTrimSpace data
  ({ remaining := b }, data.length)

/-- Body file of the earlier `http.go` variant: alongside the body stream
it holds the pointer to the owning message's `ContentLength` cell (the
same cell the sibling `contentlength` node renders). -/
structure HttpV1.httpBodyFile where
  ContentLength : Int
  Body : GoReader
deriving DecidableEq, Repr

/-- httpBodyFile.readCopy (earlier `http.go` variant): identical drain and
replace logic. -/
def HttpV1.httpBodyFile.readCopy (bf : HttpV1.httpBodyFile) :
    Bytes × HttpV1.httpBodyFile :=
  let buf : Bytes := []
  let res := ioutilReadAllTee bf.Body buf
  (res.1, { bf with Body := { remaining := res.2 } })

/-- httpBodyFile.ValRead (earlier `http.go` variant). -/
def HttpV1.httpBodyFile.ValRead (bf : HttpV1.httpBodyFile) :
    Except FuseErr Bytes × HttpV1.httpBodyFile :=
  let res := HttpV1.httpBodyFile.readCopy bf
  (.ok res.1, res.2)

/-- httpBodyFile.ValWrite (earlier `http.go` variant): trim the input,
replace the body with a fresh reader over the trimmed bytes and set the
linked `ContentLength` cell to their length, in the same call. -/
def HttpV1.httpBodyFile.ValWrite (bf : HttpV1.httpBodyFile) (data : Bytes) :
    HttpV1.httpBodyFile × Nat :=
  let b := goTrimSpace data
  ({ ContentLength := (b.length : Int), Body := { remaining := b } },
   data.length)

/-- Body write at message level in the current `http.go` variant: the
message state visible to the kernel is the `ContentLength` cell (rendered
by the sibling `contentlength` node) together with the body stream.  The
part_002 `httpBodyFile` struct holds only the `Body` pointer — its
constructor takes no content-length argument, although the struct's and
constructor's doc comments still promise to keep the content length
updated — so the write can only replace the stream: the cell passes
through untouched. -/
def HttpV2.messageBodyWrite (contentLength : Int) (body : GoReader)
    (data : Bytes) : Int × GoReader × Nat :=
  let res := HttpV2.httpBodyFile.ValWrite body data
  (contentLength, res.1, res.2)

/-- In-flight HTTP request, identified opaquely: the claims under proof
never inspect request fields, only pass the pointer around. -/
structure GoRequest where
  rid : Nat
deriving DecidableEq, Repr

/-- In-flight HTTP response: the `http.Response` fields the repository
constructs or exposes. -/
structure GoResponse where
  Status : Bytes
  StatusCode : Nat
  Body : GoReader
  Header : List (String × List String)
  ContentLength : Int
  Proto : Bytes
  ProtoMajor : Nat
  ProtoMinor : Nat
  Close : Bool
  Request : Option GoRequest
deriving DecidableEq, Repr

/-- droppedResponse (`proxy.go`): the synthetic response returned when an
intercepted message is dropped.  `http.StatusInternalServerError` is the
constant 500; `make(map[string][]string, 0)` is the empty header map. -/
def droppedResponse (req : Option GoRequest) : GoResponse :=
  let msg := "Dropped by proxyfs".data
  { Status := "500 Internal Server Error".data
    StatusCode := 500
    Body := { remaining := msg }
    Header := []
    ContentLength := (msg.length : Int)
    Proto := "HTTP/1.1".data
    ProtoMajor := 1
    ProtoMinor := 1
    Close := true
    Request := req }

/-- Which of the two one-shot signals of a queue entry fired first in the
hook's `select`. -/
inductive SignalChoice where
  | forward
  | drop
deriving DecidableEq, Repr

/-- Release decision of HandleRequest (`proxy.go`): with interception on
the hook waits on `forward` or `drop`; `drop` short-circuits forwarding by
returning the synthetic dropped response next to the request.  With
interception off no wait happens and no response is synthesised. -/
def handleRequestSelect (intReq : Bool) (sig : SignalChoice)
    (r : GoRequest) : GoRequest × Option GoResponse :=
  if intReq then
    match sig with
    | .forward => (r, none)
    | .drop => (r, some (droppedResponse (some r)))
  else (r, none)

/-- Release decision of HandleResponse (`proxy.go`): on `drop` the held
response is replaced by the synthetic dropped response built from its
owning request. -/
def handleResponseSelect (intResp : Bool) (sig : SignalChoice)
    (r : GoResponse) : GoResponse :=
  if intResp then
    match sig with
    | .forward => r
    | .drop => droppedResponse r.Request
  else r

/-- proxyReq (`proxy.go`): queue entry wrapping a request.  The two
one-shot channels are modelled by their identities (a send is recorded as
the channel identity of the entry it targets). -/
structure proxyReq where
  Req : GoRequest
  Forward : Nat
  Drop : Nat
  ID : Nat
deriving DecidableEq, Repr

/-- proxyResp (`proxy.go`): queue entry wrapping a response. -/
structure proxyResp where
  Resp : GoResponse
  Forward : Nat
  Drop : Nat
  ID : Nat
deriving DecidableEq, Repr

/-- Outcome of a queue-directory `RemoveNode` call: not-found, a send on
the drop channel of exactly one entry, or a Go runtime panic (slice index
out of range). -/
inductive RemoveOutcome where
  | enoent
  | dropFired (ch : Nat)
  | panics
deriving DecidableEq, Repr

/-- reqListElement.RemoveNode (current `http.go` variant): `strconv.Atoi`
on the name, `ENOENT` when the parse fails or `i >= len(*e.Data)`, then an
unguarded `(*e.Data)[i].Drop <- 1`.  A parsed negative index reaches the
indexing expression, which panics at runtime in Go; both impossible-index
paths are modelled as `panics`. -/
def reqListElement.RemoveNode (queue : List proxyReq) (name : Bytes) :
    RemoveOutcome :=
  match strconvAtoi name with
  | none => .enoent
  | some i =>
    if (queue.length : Int) ≤ i then .enoent
    else if i < 0 then .panics
    else
      match queue[i.toNat]? with
      | some e => .dropFired e.Drop
      | none => .panics

/-- respListElement.RemoveNode (current `http.go` variant): identical
logic over the response queue. -/
def respListElement.RemoveNode (queue : List proxyResp) (name : Bytes) :
    RemoveOutcome :=
  match strconvAtoi name with
  | none => .enoent
  | some i =>
    if (queue.length : Int) ≤ i then .enoent
    else if i < 0 then .panics
    else
      match queue[i.toNat]? with
      | some e => .dropFired e.Drop
      | none => .panics

/-- Request arm of one iteration of Proxy.dispatchIntercepts (`proxy.go`):
after a change notification on the `intreq` bool, if interception is now
off, send on the Forward channel of every entry of the request queue, in
queue order; if it is on, send nothing.  The returned list records the
targeted channel identities in send order. -/
def dispatchInterceptsReqStep (intReq : Bool) (requests : List proxyReq) :
    List Nat :=
  if !intReq then requests.map (fun r => r.Forward) else []

/-- Response arm of one iteration of Proxy.dispatchIntercepts
(`proxy.go`). -/
def dispatchInterceptsRespStep (intResp : Bool) (responses : List proxyResp) :
    List Nat :=
  if !intResp then responses.map (fun r => r.Forward) else []

/-- Kind of child node a message directory hands back from `GetNode`; the
tags follow the constructors used in the source. -/
inductive VarNodeTag where
  | stringFile
  | urlFile
  | boolFile
  | headerDir
  | reqRawFile
  | int64File
  | bodyFile
  | chanFile
deriving DecidableEq, Repr

/-- Dirent type tags of `bazil.org/fuse` used by `GetDirentType`. -/
inductive DirentType where
  | dir
  | file
deriving DecidableEq, Repr

/-- Child names the request message directory enumerates as files
(`newReqDirElement`, current `http.go` variant). -/
def reqDirElement.files : List String :=
  ["method", "url", "proto", "close", "host", "raw", "contentlength",
   "body", "forward"]

/-- Child names the request message directory enumerates as
sub-directories (`newReqDirElement`). -/
def reqDirElement.dirs : List String := ["headers"]

/-- reqDirElement.GetNode (current `http.go` variant): the lookup switch
over child names, tagged by the node constructor each case returns;
unknown names yield `ENOENT`. -/
def reqDirElement.GetNode (k : String) : Except FuseErr VarNodeTag :=
  if k = "method" then .ok .stringFile
  else if k = "url" then .ok .urlFile
  else if k = "requrl" then .ok .stringFile
  else if k = "proto" then .ok .stringFile
  else if k = "close" then .ok .boolFile
  else if k = "host" then .ok .stringFile
  else if k = "headers" then .ok .headerDir
  else if k = "raw" then .ok .reqRawFile
  else if k = "contentlength" then .ok .int64File
  else if k = "body" then .ok .bodyFile
  else if k = "forward" then .ok .chanFile
  else .error .ENOENT

/-- reqDirElement.GetDirentType (current `http.go` variant): scan the
`dirs` then the `files` lists; names in neither yield `ENOENT`. -/
def reqDirElement.GetDirentType (k : String) : Except FuseErr DirentType :=
  if k ∈ reqDirElement.dirs then .ok .dir
  else if k ∈ reqDirElement.files then .ok .file
  else .error .ENOENT

/-- reqDirElement.GetKeys (current `http.go` variant):
`append(e.files, e.dirs...)`. -/
def reqDirElement.GetKeys : List String :=
  reqDirElement.files ++ reqDirElement.dirs

theorem dropWhile_eq_self_of_forall {p : Char → Bool} (l : Bytes)
    (h : ∀ c ∈ l, p c = false) : l.dropWhile p = l := by
  cases l with
  | nil => rfl
  | cons c cs =>
    rw [List.dropWhile_cons, h c (by simp)]
    simp

theorem dropWhile_eq_nil_of_forall {p : Char → Bool} (l : Bytes)
    (h : ∀ c ∈ l, p c = true) : l.dropWhile p = [] := by
  induction l with
  | nil => rfl
  | cons c cs ih =>
    rw [List.dropWhile_cons, h c (by simp)]
    simp only [if_true]
    exact ih (fun x hx => h x (by simp [hx]))

theorem goTrimSpace_eq_self {l : Bytes} (h : ∀ c ∈ l, goIsSpace c = false) :
    goTrimSpace l = l := by
  unfold goTrimSpace
  rw [dropWhile_eq_self_of_forall l h]
  rw [dropWhile_eq_self_of_forall l.reverse
    (fun c hc => h c (List.mem_reverse.mp hc))]
  exact List.reverse_reverse l

theorem goTrimSpace_eq_nil {l : Bytes} (h : ∀ c ∈ l, goIsSpace c = true) :
    goTrimSpace l = [] := by
  unfold goTrimSpace
  rw [dropWhile_eq_nil_of_forall l h]
  rfl

theorem digitVal_digitChar (d : Nat) (h : d < 10) :
    digitVal (digitChar d) = some d := by
  interval_cases d <;> decide

theorem digitChar_not_space (d : Nat) (h : d < 10) :
    goIsSpace (digitChar d) = false := by
  interval_cases d <;> decide

theorem digitChar_ne_plus (d : Nat) (h : d < 10) : digitChar d ≠ '+' := by
  interval_cases d <;> decide

theorem digitChar_ne_minus (d : Nat) (h : d < 10) : digitChar d ≠ '-' := by
  interval_cases d <;> decide

theorem natCharsAux_congr : ∀ (n fuel₁ fuel₂ : Nat), n < fuel₁ → n < fuel₂ →
    natCharsAux fuel₁ n = natCharsAux fuel₂ n := by
  intro n
  induction n using Nat.strong_induction_on with
  | _ n ih =>
    intro fuel₁ fuel₂ h₁ h₂
    cases fuel₁ with
    | zero => omega
    | succ f₁ =>
      cases fuel₂ with
      | zero => omega
      | succ f₂ =>
        simp only [natCharsAux]
        by_cases h : n < 10
        · simp [h]
        · rw [if_neg h, if_neg h]
          have hd : n / 10 < n := Nat.div_lt_self (by omega) (by omega)
          rw [ih (n / 10) hd f₁ f₂ (by omega) (by omega)]

theorem natChars_eq (n : Nat) :
    natChars n =
      if n < 10 then [digitChar n]
      else natChars (n / 10) ++ [digitChar (n % 10)] := by
  by_cases h : n < 10
  · rw [if_pos h]
    show natCharsAux (n + 1) n = [digitChar n]
    simp only [natCharsAux]
    rw [if_pos h]
  · rw [if_neg h]
    show natCharsAux (n + 1) n = natChars (n / 10) ++ [digitChar (n % 10)]
    simp only [natCharsAux]
    rw [if_neg h]
    congr 1
    exact natCharsAux_congr (n / 10) n (n / 10 + 1) (by omega) (by omega)

theorem natChars_ne_nil (n : Nat) : natChars n ≠ [] := by
  rw [natChars_eq]
  by_cases h : n < 10 <;> simp [h]

theorem mem_natChars : ∀ (n : Nat), ∀ c ∈ natChars n,
    ∃ d, d < 10 ∧ c = digitChar d := by
  intro n
  induction n using Nat.strong_induction_on with
  | _ n ih =>
    intro c hc
    rw [natChars_eq] at hc
    by_cases h : n < 10
    · rw [if_pos h] at hc
      simp only [List.mem_singleton] at hc
      exact ⟨n, h, hc⟩
    · rw [if_neg h] at hc
      rcases List.mem_append.mp hc with h1 | h2
      · exact ih (n / 10) (Nat.div_lt_self (by omega) (by omega)) c h1
      · simp only [List.mem_singleton] at h2
        exact ⟨n % 10, Nat.mod_lt _ (by omega), h2⟩

theorem parseNatCore_append (xs ys : Bytes) (acc : Nat) :
    parseNatCore (xs ++ ys) acc =
      (parseNatCore xs acc).bind (fun a => parseNatCore ys a) := by
  induction xs generalizing acc with
  | nil => simp [parseNatCore]
  | cons c cs ih =>
    simp only [List.cons_append, parseNatCore]
    cases h : digitVal c with
    | none => simp
    | some d => simp [ih]

theorem parseNatCore_natChars : ∀ (n acc : Nat),
    parseNatCore (natChars n) acc =
      some (acc * 10 ^ (natChars n).length + n) := by
  intro n
  induction n using Nat.strong_induction_on with
  | _ n ih =>
    intro acc
    rw [natChars_eq]
    by_cases h : n < 10
    · rw [if_pos h]
      have hstep : parseNatCore [digitChar n] acc = some (10 * acc + n) := by
        simp [parseNatCore, digitVal_digitChar n h]
      rw [hstep]
      congr 1
      simp only [List.length_singleton, pow_one]
      omega
    · rw [if_neg h]
      rw [parseNatCore_append]
      rw [ih (n / 10) (Nat.div_lt_self (by omega) (by omega)) acc]
      have hstep : ∀ a, parseNatCore [digitChar (n % 10)] a =
          some (10 * a + n % 10) := by
        intro a
        simp [parseNatCore, digitVal_digitChar (n % 10) (Nat.mod_lt _ (by omega))]
      simp only [Option.some_bind, hstep]
      congr 1
      rw [List.length_append, List.length_singleton, pow_succ]
      have hdm := Nat.div_add_mod n 10
      set k := (natChars (n / 10)).length
      set m := acc * 10 ^ k with hm
      have : acc * (10 ^ k * 10) = m * 10 := by rw [hm]; ring
      rw [this]
      omega

theorem parseNatDigits_natChars (n : Nat) :
    parseNatDigits (natChars n) = some n := by
  unfold parseNatDigits
  rw [if_neg (natChars_ne_nil n)]
  rw [parseNatCore_natChars]
  simp

theorem goTrimSpace_strconvItoa (x : Int) :
    goTrimSpace (strconvItoa x) = strconvItoa x := by
  apply goTrimSpace_eq_self
  intro c hc
  unfold strconvItoa at hc
  by_cases hx : x < 0
  · rw [if_pos hx] at hc
    rw [List.mem_cons] at hc
    rcases hc with rfl | hc
    · decide
    · obtain ⟨d, hd, rfl⟩ := mem_natChars _ c hc
      exact digitChar_not_space d hd
  · rw [if_neg hx] at hc
    obtain ⟨d, hd, rfl⟩ := mem_natChars _ c hc
    exact digitChar_not_space d hd

theorem strconvParseInt_minus (rest : Bytes) :
    strconvParseInt ('-' :: rest) =
      match parseNatDigits rest with
      | none => none
      | some n => if n ≤ 2 ^ 63 then some (-(n : Int)) else none := by
  simp [strconvParseInt]

theorem strconvParseInt_nosign (c : Char) (rest : Bytes) (hp : ¬ (c = '+'))
    (hm : ¬ (c = '-')) :
    strconvParseInt (c :: rest) =
      match parseNatDigits (c :: rest) with
      | none => none
      | some n => if n ≤ 2 ^ 63 - 1 then some ((n : Nat) : Int) else none := by
  simp only [strconvParseInt, if_neg hp, if_neg hm]

theorem strconvParseInt_strconvItoa (x : Int) (h₁ : -(2 ^ 63) ≤ x)
    (h₂ : x ≤ 2 ^ 63 - 1) : strconvParseInt (strconvItoa x) = some x := by
  by_cases hx : x < 0
  · rw [strconvItoa, if_pos hx, strconvParseInt_minus, parseNatDigits_natChars]
    show (if (-x).toNat ≤ 2 ^ 63 then some (-(((-x).toNat : Nat) : Int))
          else none) = some x
    rw [if_pos (show (-x).toNat ≤ 2 ^ 63 by omega)]
    congr 1
    omega
  · rw [strconvItoa, if_neg hx]
    obtain ⟨c, rest, hcr⟩ := List.exists_cons_of_ne_nil (natChars_ne_nil x.toNat)
    have hcmem : c ∈ natChars x.toNat := by rw [hcr]; simp
    obtain ⟨d, hd, hcd⟩ := mem_natChars _ c hcmem
    have hplus : ¬ (c = '+') := by rw [hcd]; exact digitChar_ne_plus d hd
    have hminus : ¬ (c = '-') := by rw [hcd]; exact digitChar_ne_minus d hd
    rw [hcr, strconvParseInt_nosign c rest hplus hminus, ← hcr,
      parseNatDigits_natChars]
    show (if x.toNat ≤ 2 ^ 63 - 1 then some ((x.toNat : Nat) : Int)
          else none) = some x
    rw [if_pos (show x.toNat ≤ 2 ^ 63 - 1 by omega)]
    congr 1
    omega

/-- C1: evaluation of the queue-directory remove handler at a failing
input.  The claim requires every name that does not denote a current
entry to yield not-found with no drop signal fired, but the handler's
only guard is `err != nil || i >= len`: the name `"-1"` parses to the
index `-1`, passes that guard, and the subsequent `(*e.Data)[i]`
indexing panics at runtime instead of returning `ENOENT`.  The same
happens on the response queue. -/
theorem C1_remove_negative_name_panics :
    strconvAtoi ['-', '1'] = some (-1)
    ∧ reqListElement.RemoveNode
        [{ Req := ⟨0⟩, Forward := 10, Drop := 11, ID := 0 }] ['-', '1']
        = .panics
    ∧ respListElement.RemoveNode
        [{ Resp := droppedResponse none, Forward := 20, Drop := 21, ID := 1 }]
        ['-', '1'] = .panics := by
  exact ⟨by decide, rfl, rfl⟩

/-- Earlier body-file variant (part_001), kept as supporting evidence for
the intended behaviour: its `httpBodyFile` carries the message's
`ContentLength` pointer, and `ValWrite` replaces the stream with the
trimmed bytes and sets that cell to their length in the same call, so the
spec's scenario (write `"longer body\n"`, read contentlength `"11"`, read
body `"longer body"`) holds on this variant. -/
theorem httpBodyFileV1_write_updates_contentlength :
    ∀ (bf : HttpV1.httpBodyFile) (data : Bytes),
      (HttpV1.httpBodyFile.ValWrite bf data).1.ContentLength
          = ((goTrimSpace data).length : Int)
      ∧ (HttpV1.httpBodyFile.ValRead
            (HttpV1.httpBodyFile.ValWrite bf data).1).1
          = .ok (goTrimSpace data)
      ∧ (HttpV1.httpBodyFile.ValWrite bf data).2 = data.length
      ∧ (∀ mode : Nat, mode &&& 0o444 ≠ 0 →
          Int64File.ReadAll mode
              (HttpV1.httpBodyFile.ValWrite bf data).1.ContentLength
            = .ok (strconvFormatInt ((goTrimSpace data).length : Int)))
      ∧ (data = "longer body\n".data →
          Int64File.ReadAll 438
              (HttpV1.httpBodyFile.ValWrite bf data).1.ContentLength
            = .ok "11".data
          ∧ (HttpV1.httpBodyFile.ValRead
                (HttpV1.httpBodyFile.ValWrite bf data).1).1
            = .ok "longer body".data) := by
  intro bf data
  have hCL : ∀ d : Bytes,
      (HttpV1.httpBodyFile.ValWrite bf d).1.ContentLength
        = ((goTrimSpace d).length : Int) := fun _ => rfl
  have hRD : ∀ d : Bytes,
      (HttpV1.httpBodyFile.ValRead (HttpV1.httpBodyFile.ValWrite bf d).1).1
        = .ok (goTrimSpace d) := fun _ => rfl
  refine ⟨hCL data, hRD data, rfl, ?_, ?_⟩
  · intro mode hm
    unfold Int64File.ReadAll
    rw [if_neg hm, hCL data]
  · rintro rfl
    refine ⟨?_, ?_⟩
    · rw [hCL]
      decide
    · rw [hRD]
      decide

/-- Concrete instance of the earlier variant's behaviour: the spec's own
scenario, starting from a held body `"abc"` with content length 3. -/
theorem httpBodyFileV1_write_updates_contentlength_example :
    (HttpV1.httpBodyFile.ValWrite ⟨3, ⟨"abc".data⟩⟩ "longer body\n".data).1.ContentLength
        = (11 : Int)
    ∧ Int64File.ReadAll 438
        (HttpV1.httpBodyFile.ValWrite ⟨3, ⟨"abc".data⟩⟩ "longer body\n".data).1.ContentLength
        = .ok "11".data
    ∧ (HttpV1.httpBodyFile.ValRead
          (HttpV1.httpBodyFile.ValWrite ⟨3, ⟨"abc".data⟩⟩ "longer body\n".data).1).1
        = .ok "longer body".data := by
  have h := httpBodyFileV1_write_updates_contentlength ⟨3, ⟨"abc".data⟩⟩
    "longer body\n".data
  refine ⟨?_, (h.2.2.2.2 rfl).1, (h.2.2.2.2 rfl).2⟩
  rw [h.1]
  decide

/-- C3: when the drop signal wins the hook's select, the synthetic
response built by `droppedResponse` has status `"500 Internal Server
Error"`, status code 500, body `"Dropped by proxyfs"`, content length 18,
protocol HTTP/1.1 (major 1, minor 1), `Close` set, an empty header map
and the owning request attached; for requests the hook returns it next to
the request, short-circuiting forwarding, and for responses it replaces
the held response. -/
theorem C3_dropped_response_shape :
    ∀ (r : GoRequest) (resp : GoResponse),
      (droppedResponse (some r)).Status = "500 Internal Server Error".data
      ∧ (droppedResponse (some r)).StatusCode = 500
      ∧ (droppedResponse (some r)).Body.remaining = "Dropped by proxyfs".data
      ∧ (droppedResponse (some r)).ContentLength = 18
      ∧ (droppedResponse (some r)).Proto = "HTTP/1.1".data
      ∧ (droppedResponse (some r)).ProtoMajor = 1
      ∧ (droppedResponse (some r)).ProtoMinor = 1
      ∧ (droppedResponse (some r)).Close = true
      ∧ (droppedResponse (some r)).Header = []
      ∧ (droppedResponse (some r)).Request = some r
      ∧ handleRequestSelect true .drop r = (r, some (droppedResponse (some r)))
      ∧ handleResponseSelect true .drop resp = droppedResponse resp.Request := by
  intro r resp
  exact ⟨rfl, rfl, rfl, rfl, rfl, rfl, rfl, rfl, rfl, rfl, rfl, rfl⟩

/-- C6: a body read drains the stream while teeing it into a buffer and
replaces the stream with a fresh reader over the buffered bytes, so two
consecutive reads return identical byte sequences and the stream still
holds the full body afterwards. -/
theorem C6_body_read_restartable :
    ∀ body : GoReader,
      (HttpV2.httpBodyFile.ValRead body).1 = .ok body.remaining
      ∧ (HttpV2.httpBodyFile.ValRead ((HttpV2.httpBodyFile.ValRead body).2)).1
          = (HttpV2.httpBodyFile.ValRead body).1
      ∧ ((HttpV2.httpBodyFile.ValRead body).2).remaining = body.remaining := by
  intro body
  exact ⟨rfl, rfl, rfl⟩

/-- C9: evaluation of the request message directory at the failing name.
The claim requires the listing to return the fixed child set including
`requrl` and lookup to succeed exactly on the listed names, but the
source's `GetNode` switch serves `requrl` while the `files` slice backing
`GetKeys` and `GetDirentType` omits it: lookup succeeds on a name the
listing never returns (and whose dirent type query fails), while the
listed names are tagged correctly. -/
theorem C9_requrl_served_but_unlisted :
    reqDirElement.GetNode "requrl" = .ok .stringFile
    ∧ "requrl" ∉ reqDirElement.GetKeys
    ∧ reqDirElement.GetDirentType "requrl" = .error .ENOENT
    ∧ reqDirElement.GetDirentType "headers" = .ok .dir
    ∧ reqDirElement.GetDirentType "method" = .ok .file := by
  exact ⟨rfl, by decide, rfl, rfl, rfl⟩

/-- C4: for every typed value file (bool, int, int64, regex, URL), a write
whose trimmed text fails to parse at the file's type returns `ERANGE` and
leaves the backing cell exactly as it was (the error paths return before
the assignment); in particular a failed regex write leaves the previous
pattern readable. -/
theorem C4_malformed_write_leaves_cell_unchanged :
    (∀ (mode : Nat) (cell : Bool) (data : Bytes),
      mode &&& 0o222 ≠ 0 →
      goTrimSpace data ≠ ['0'] → goTrimSpace data ≠ ['1'] →
      BoolFile.Write mode cell data = (cell, .error .ERANGE))
    ∧ (∀ (mode : Nat) (cell : Int) (data : Bytes),
      mode &&& 0o222 ≠ 0 →
      strconvAtoi (goTrimSpace data) = none →
      IntFile.Write mode cell data = (cell, .error .ERANGE))
    ∧ (∀ (mode : Nat) (cell : Int) (data : Bytes),
      mode &&& 0o222 ≠ 0 →
      strconvParseInt (goTrimSpace data) = none →
      Int64File.Write mode cell data = (cell, .error .ERANGE))
    ∧ (∀ (valid : Bytes → Bool) (mode : Nat) (cell : GoRegexp) (data : Bytes),
      mode &&& 0o222 ≠ 0 →
      valid (goTrimSpace data) = false →
      RegexpFile.Write valid mode cell data = (cell, .error .ERANGE)
      ∧ (mode &&& 0o444 ≠ 0 →
        RegexpFile.ReadAll mode (RegexpFile.Write valid mode cell data).1
          = .ok cell.source))
    ∧ (∀ (urlParse : Bytes → Option GoURL) (mode : Nat) (cell : GoURL)
        (data : Bytes),
      mode &&& 0o222 ≠ 0 →
      urlParse (goTrimSpace data) = none →
      URLFile.Write urlParse mode cell data = (cell, .error .ERANGE)) := by
  refine ⟨?_, ?_, ?_, ?_, ?_⟩
  · intro mode cell data hw h0 h1
    simp only [BoolFile.Write]
    rw [if_neg hw, if_neg h0, if_neg h1]
  · intro mode cell data hw hp
    simp only [IntFile.Write]
    rw [if_neg hw, hp]
  · intro mode cell data hw hp
    simp only [Int64File.Write]
    rw [if_neg hw, hp]
  · intro valid mode cell data hw hv
    have hfail : RegexpFile.Write valid mode cell data
        = (cell, .error .ERANGE) := by
      simp only [RegexpFile.Write, regexpCompile]
      rw [if_neg hw, hv]
      simp
    refine ⟨hfail, ?_⟩
    intro hr
    rw [hfail]
    simp only [RegexpFile.ReadAll]
    rw [if_neg hr]
  · intro urlParse mode cell data hw hp
    simp only [URLFile.Write]
    rw [if_neg hw, hp]

/-- C4 witness: concrete malformed writes on each typed file at mode 0666,
including the spec's `"["` regex example (with a compile model rejecting
it). -/
theorem C4_malformed_write_leaves_cell_unchanged_witness :
    BoolFile.Write 438 true "x".data = (true, .error .ERANGE)
    ∧ IntFile.Write 438 7 "abc".data = (7, .error .ERANGE)
    ∧ Int64File.Write 438 7 "99999999999999999999".data
        = (7, .error .ERANGE)
    ∧ RegexpFile.Write (fun _ => false) 438 ⟨".".data⟩ "[".data
        = (⟨".".data⟩, .error .ERANGE)
    ∧ RegexpFile.ReadAll 438
        (RegexpFile.Write (fun _ => false) 438 ⟨".".data⟩ "[".data).1
        = .ok ".".data
    ∧ URLFile.Write (fun _ => none) 438 ⟨"http".data⟩ "x".data
        = (⟨"http".data⟩, .error .ERANGE) := by
  have h := C4_malformed_write_leaves_cell_unchanged
  have hre := h.2.2.2.1 (fun _ => false) 438 ⟨".".data⟩ "[".data
    (by decide) rfl
  exact ⟨h.1 438 true "x".data (by decide) (by decide) (by decide),
    h.2.1 438 7 "abc".data (by decide) (by decide),
    h.2.2.1 438 7 "99999999999999999999".data (by decide) (by decide),
    hre.1, hre.2 (by decide),
    h.2.2.2.2 (fun _ => none) 438 ⟨"http".data⟩ "x".data (by decide) rfl⟩

/-- C5 counterexample: the round-trip claim quantifies over every typed
value file and every cell value, but for the string file a cell whose
rendering carries leading whitespace is not round-tripped: writing the
rendered text `" a"` trims it, so the subsequent read returns `"a"`. -/
theorem C5_roundtrip_counterexample :
    StringFile.ReadAll 438 (StringFile.Write 438 [] [' ', 'a']).1 = .ok ['a']
    ∧ ['a'] ≠ [' ', 'a'] := by
  exact ⟨by decide, by decide⟩

/-- C5 amended: `write(render(x)); read()` returns `render(x)` for every
value whose rendered text the whitespace trim leaves unchanged — which is
every bool, int and int64 value (decimal renderings contain no
whitespace), and every string, regex and URL value whose rendering has no
leading/trailing whitespace (for regex the pattern must still compile,
for URL the library re-parse must return a value rendering identically,
both facts of the Go standard library abstracted as parameters). -/
theorem C5_render_roundtrip_amended :
    (∀ (mode : Nat) (cell : Bool), mode &&& 0o444 ≠ 0 → mode &&& 0o222 ≠ 0 →
      BoolFile.Write mode cell ['1'] = (true, .ok 1)
      ∧ BoolFile.ReadAll mode true = .ok ['1']
      ∧ BoolFile.Write mode cell ['0'] = (false, .ok 1)
      ∧ BoolFile.ReadAll mode false = .ok ['0'])
    ∧ (∀ (mode : Nat) (cell x : Int), mode &&& 0o444 ≠ 0 → mode &&& 0o222 ≠ 0 →
      -(2 ^ 63) ≤ x → x ≤ 2 ^ 63 - 1 →
      IntFile.Write mode cell (strconvItoa x) = (x, .ok (strconvItoa x).length)
      ∧ IntFile.ReadAll mode x = .ok (strconvItoa x))
    ∧ (∀ (mode : Nat) (cell x : Int), mode &&& 0o444 ≠ 0 → mode &&& 0o222 ≠ 0 →
      -(2 ^ 63) ≤ x → x ≤ 2 ^ 63 - 1 →
      Int64File.Write mode cell (strconvFormatInt x)
        = (x, .ok (strconvFormatInt x).length)
      ∧ Int64File.ReadAll mode x = .ok (strconvFormatInt x))
    ∧ (∀ (mode : Nat) (cell s : Bytes), mode &&& 0o444 ≠ 0 → mode &&& 0o222 ≠ 0 →
      goTrimSpace s = s →
      StringFile.Write mode cell s = (s, .ok s.length)
      ∧ StringFile.ReadAll mode s = .ok s)
    ∧ (∀ (valid : Bytes → Bool) (mode : Nat) (cell r : GoRegexp),
      mode &&& 0o444 ≠ 0 → mode &&& 0o222 ≠ 0 →
      goTrimSpace r.source = r.source → valid r.source = true →
      RegexpFile.Write valid mode cell r.source = (r, .ok r.source.length)
      ∧ RegexpFile.ReadAll mode r = .ok r.source)
    ∧ (∀ (urlParse : Bytes → Option GoURL) (mode : Nat) (cell u v : GoURL),
      mode &&& 0o444 ≠ 0 → mode &&& 0o222 ≠ 0 →
      goTrimSpace u.str = u.str → urlParse u.str = some v → v.str = u.str →
      URLFile.Write urlParse mode cell u.str = (v, .ok u.str.length)
      ∧ URLFile.ReadAll mode v = .ok u.str) := by
  refine ⟨?_, ?_, ?_, ?_, ?_, ?_⟩
  · intro mode cell hr hw
    refine ⟨?_, ?_, ?_, ?_⟩
    · simp only [BoolFile.Write]
      rw [if_neg hw, if_neg (by decide : ¬ (goTrimSpace ['1'] = ['0'])),
        if_pos (by decide : goTrimSpace ['1'] = ['1'])]
      rfl
    · simp only [BoolFile.ReadAll]
      rw [if_neg hr]
      rfl
    · simp only [BoolFile.Write]
      rw [if_neg hw, if_pos (by decide : goTrimSpace ['0'] = ['0'])]
      rfl
    · simp only [BoolFile.ReadAll]
      rw [if_neg hr]
      rfl
  · intro mode cell x hr hw h₁ h₂
    constructor
    · simp only [IntFile.Write, strconvAtoi]
      rw [if_neg hw, goTrimSpace_strconvItoa,
        strconvParseInt_strconvItoa x h₁ h₂]
    · simp only [IntFile.ReadAll]
      rw [if_neg hr]
  · intro mode cell x hr hw h₁ h₂
    constructor
    · simp only [Int64File.Write, strconvFormatInt]
      rw [if_neg hw, goTrimSpace_strconvItoa,
        strconvParseInt_strconvItoa x h₁ h₂]
    · simp only [Int64File.ReadAll]
      rw [if_neg hr]
  · intro mode cell s hr hw hs
    constructor
    · simp only [StringFile.Write]
      rw [if_neg hw, hs]
    · simp only [StringFile.ReadAll]
      rw [if_neg hr]
  · intro valid mode cell r hr hw htrim hv
    constructor
    · simp only [RegexpFile.Write, regexpCompile]
      rw [if_neg hw, htrim, hv]
      rfl
    · simp only [RegexpFile.ReadAll]
      rw [if_neg hr]
  · intro urlParse mode cell u v hr hw htrim hp hvs
    constructor
    · simp only [URLFile.Write]
      rw [if_neg hw, htrim, hp]
    · simp only [URLFile.ReadAll]
      rw [if_neg hr, hvs]

/-- C5 witness: concrete round trips at mode 0666, one per typed file,
with the regex compile and URL parse models instantiated concretely. -/
theorem C5_render_roundtrip_witness :
    BoolFile.Write 438 false ['1'] = (true, .ok 1)
    ∧ BoolFile.ReadAll 438 true = .ok ['1']
    ∧ IntFile.Write 438 0 (strconvItoa 42) = (42, .ok (strconvItoa 42).length)
    ∧ IntFile.ReadAll 438 42 = .ok (strconvItoa 42)
    ∧ Int64File.Write 438 0 (strconvFormatInt (-7))
        = (-7, .ok (strconvFormatInt (-7)).length)
    ∧ Int64File.ReadAll 438 (-7) = .ok (strconvFormatInt (-7))
    ∧ StringFile.Write 438 [] "ab".data = ("ab".data, .ok 2)
    ∧ StringFile.ReadAll 438 "ab".data = .ok "ab".data
    ∧ RegexpFile.Write (fun _ => true) 438 ⟨".".data⟩ "ab".data
        = (⟨"ab".data⟩, .ok 2)
    ∧ RegexpFile.ReadAll 438 ⟨"ab".data⟩ = .ok "ab".data
    ∧ URLFile.Write (fun s => some ⟨s⟩) 438 ⟨"x".data⟩ "u".data
        = (⟨"u".data⟩, .ok 1)
    ∧ URLFile.ReadAll 438 ⟨"u".data⟩ = .ok "u".data := by
  have h := C5_render_roundtrip_amended
  have hb := h.1 438 false (by decide) (by decide)
  have hi := h.2.1 438 0 42 (by decide) (by decide) (by decide) (by decide)
  have hi64 := h.2.2.1 438 0 (-7) (by decide) (by decide) (by decide)
    (by decide)
  have hs := h.2.2.2.1 438 [] "ab".data (by decide) (by decide) (by decide)
  have hre := h.2.2.2.2.1 (fun _ => true) 438 ⟨".".data⟩ ⟨"ab".data⟩
    (by decide) (by decide) (by decide) rfl
  have hu := h.2.2.2.2.2 (fun s => some ⟨s⟩) 438 ⟨"x".data⟩ ⟨"u".data⟩
    ⟨"u".data⟩ (by decide) (by decide) (by decide) rfl rfl
  exact ⟨hb.1, hb.2.1, hi.1, hi.2, hi64.1, hi64.2, hs.1, hs.2,
    hre.1, hre.2, hu.1, hu.2⟩

/-- C7: one dispatcher iteration after an intercept-mode change.  When the
direction's flag is off, the loop sends on the Forward channel of every
currently queued entry, in queue order — exactly once per entry as long
as the queue holds no duplicated channel (each entry's signals are fresh);
when the flag is on, nothing is sent, so already-queued entries are not
released by a transition to on.  Both directions behave identically. -/
theorem C7_intercept_off_releases_each_once :
    ∀ (intReq intResp : Bool) (qs : List proxyReq) (rs : List proxyResp),
      (intReq = false →
        dispatchInterceptsReqStep intReq qs = qs.map (fun r => r.Forward)
        ∧ ((qs.map (fun r => r.Forward)).Nodup →
          ∀ e ∈ qs, (dispatchInterceptsReqStep intReq qs).count e.Forward = 1))
      ∧ (intReq = true → dispatchInterceptsReqStep intReq qs = [])
      ∧ (intResp = false →
        dispatchInterceptsRespStep intResp rs = rs.map (fun r => r.Forward)
        ∧ ((rs.map (fun r => r.Forward)).Nodup →
          ∀ e ∈ rs, (dispatchInterceptsRespStep intResp rs).count e.Forward = 1))
      ∧ (intResp = true → dispatchInterceptsRespStep intResp rs = []) := by
  intro intReq intResp qs rs
  refine ⟨?_, ?_, ?_, ?_⟩
  · rintro rfl
    refine ⟨rfl, ?_⟩
    intro hnd e he
    exact List.count_eq_one_of_mem hnd (List.mem_map_of_mem _ he)
  · rintro rfl
    rfl
  · rintro rfl
    refine ⟨rfl, ?_⟩
    intro hnd e he
    exact List.count_eq_one_of_mem hnd (List.mem_map_of_mem _ he)
  · rintro rfl
    rfl

/-- C7 witness: a two-entry request queue and a one-entry response queue;
turning the flag off fires each forward channel exactly once, turning it
on fires nothing. -/
theorem C7_intercept_off_releases_each_once_witness :
    dispatchInterceptsReqStep false
        [⟨⟨0⟩, 10, 11, 0⟩, ⟨⟨1⟩, 20, 21, 1⟩] = [10, 20]
    ∧ (dispatchInterceptsReqStep false
        [⟨⟨0⟩, 10, 11, 0⟩, ⟨⟨1⟩, 20, 21, 1⟩]).count 10 = 1
    ∧ (dispatchInterceptsReqStep false
        [⟨⟨0⟩, 10, 11, 0⟩, ⟨⟨1⟩, 20, 21, 1⟩]).count 20 = 1
    ∧ dispatchInterceptsReqStep true
        [⟨⟨0⟩, 10, 11, 0⟩, ⟨⟨1⟩, 20, 21, 1⟩] = []
    ∧ dispatchInterceptsRespStep false [⟨droppedResponse none, 30, 31, 2⟩]
        = [30]
    ∧ dispatchInterceptsRespStep true [⟨droppedResponse none, 30, 31, 2⟩]
        = [] := by
  have h := C7_intercept_off_releases_each_once false false
    [⟨⟨0⟩, 10, 11, 0⟩, ⟨⟨1⟩, 20, 21, 1⟩] [⟨droppedResponse none, 30, 31, 2⟩]
  have h' := C7_intercept_off_releases_each_once true true
    [⟨⟨0⟩, 10, 11, 0⟩, ⟨⟨1⟩, 20, 21, 1⟩] [⟨droppedResponse none, 30, 31, 2⟩]
  refine ⟨(h.1 rfl).1.trans (by decide), ?_, ?_, h'.2.1 rfl,
    ((h.2.2.1 rfl).1).trans (by decide), h'.2.2.2 rfl⟩
  · exact (h.1 rfl).2 (by decide) ⟨⟨0⟩, 10, 11, 0⟩ (by decide)
  · exact (h.1 rfl).2 (by decide) ⟨⟨1⟩, 20, 21, 1⟩ (by decide)

/-- C8: the bool file contract.  Read renders the cell as exactly `"1"`
or `"0"`; write accepts exactly the inputs whose trimmed text is `"0"` or
`"1"`, storing false resp. true and consuming the full input length, and
returns `ERANGE` with the cell untouched on every other input; writing
`"1\n"` makes a subsequent read return `"1"` with the cell true. -/
theorem C8_bool_file_contract :
    ∀ (mode : Nat) (cell : Bool) (data : Bytes),
      (mode &&& 0o444 ≠ 0 →
        BoolFile.ReadAll mode true = .ok ['1']
        ∧ BoolFile.ReadAll mode false = .ok ['0'])
      ∧ (mode &&& 0o222 ≠ 0 →
        (goTrimSpace data = ['0'] →
          BoolFile.Write mode cell data = (false, .ok data.length))
        ∧ (goTrimSpace data = ['1'] →
          BoolFile.Write mode cell data = (true, .ok data.length))
        ∧ (goTrimSpace data ≠ ['0'] → goTrimSpace data ≠ ['1'] →
          BoolFile.Write mode cell data = (cell, .error .ERANGE)))
      ∧ (mode &&& 0o222 ≠ 0 → mode &&& 0o444 ≠ 0 →
        BoolFile.Write mode cell "1\n".data = (true, .ok 2)
        ∧ BoolFile.ReadAll mode
            (BoolFile.Write mode cell "1\n".data).1 = .ok ['1']) := by
  intro mode cell data
  refine ⟨?_, ?_, ?_⟩
  · intro hr
    constructor
    · simp only [BoolFile.ReadAll]
      rw [if_neg hr]
      rfl
    · simp only [BoolFile.ReadAll]
      rw [if_neg hr]
      rfl
  · intro hw
    refine ⟨?_, ?_, ?_⟩
    · intro h0
      simp only [BoolFile.Write]
      rw [if_neg hw, if_pos h0]
    · intro h1
      simp only [BoolFile.Write]
      rw [if_neg hw, if_neg (h1 ▸ (by decide : ¬ ((['1'] : Bytes) = ['0']))),
        if_pos h1]
    · intro h0 h1
      simp only [BoolFile.Write]
      rw [if_neg hw, if_neg h0, if_neg h1]
  · intro hw hr
    have hone : BoolFile.Write mode cell "1\n".data = (true, .ok 2) := by
      simp only [BoolFile.Write]
      rw [if_neg hw,
        if_neg (by decide : ¬ (goTrimSpace "1\n".data = ['0'])),
        if_pos (by decide : goTrimSpace "1\n".data = ['1'])]
      rfl
    refine ⟨hone, ?_⟩
    rw [hone]
    simp only [BoolFile.ReadAll]
    rw [if_neg hr]
    rfl

/-- C8 witness: mode 0666, the spec's `"1\n"` write followed by a read,
plus a `"0"` write and a rejected write. -/
theorem C8_bool_file_contract_witness :
    BoolFile.Write 438 false "1\n".data = (true, .ok 2)
    ∧ BoolFile.ReadAll 438 (BoolFile.Write 438 false "1\n".data).1 = .ok ['1']
    ∧ BoolFile.Write 438 true "0".data = (false, .ok 1)
    ∧ BoolFile.Write 438 true "x".data = (true, .error .ERANGE)
    ∧ BoolFile.ReadAll 438 true = .ok ['1'] := by
  have h := C8_bool_file_contract 438 false "1\n".data
  have h0 := C8_bool_file_contract 438 true "0".data
  have hx := C8_bool_file_contract 438 true "x".data
  refine ⟨(h.2.2 (by decide) (by decide)).1, (h.2.2 (by decide) (by decide)).2,
    ?_, ?_, (h.1 (by decide)).1⟩
  · exact ((h0.2.1 (by decide)).1 (by decide)).trans (by decide)
  · exact (hx.2.1 (by decide)).2.2 (by decide) (by decide)

/-- C10: the string file write never fails when the write bits are set:
the cell becomes the whitespace-trimmed input and the full input byte
count is reported consumed; whitespace-only (or empty) input sets the
cell to the empty string, which a subsequent read returns. -/
theorem C10_string_write_always_succeeds :
    ∀ (mode : Nat) (cell data : Bytes),
      mode &&& 0o222 ≠ 0 →
      StringFile.Write mode cell data = (goTrimSpace data, .ok data.length)
      ∧ ((∀ c ∈ data, goIsSpace c = true) → goTrimSpace data = [])
      ∧ (mode &&& 0o444 ≠ 0 →
        StringFile.ReadAll mode (StringFile.Write mode cell data).1
          = .ok (goTrimSpace data)) := by
  intro mode cell data hw
  have hwr : StringFile.Write mode cell data
      = (goTrimSpace data, .ok data.length) := by
    simp only [StringFile.Write]
    rw [if_neg hw]
  refine ⟨hwr, fun h => goTrimSpace_eq_nil h, ?_⟩
  intro hr
  rw [hwr]
  simp only [StringFile.ReadAll]
  rw [if_neg hr]

/-- C10 witness: mode 0666; a whitespace-only write lands the empty
string in the cell, an ordinary write lands the trimmed text. -/
theorem C10_string_write_always_succeeds_witness :
    StringFile.Write 438 "old".data "  \n".data = ([], .ok 3)
    ∧ StringFile.ReadAll 438 (StringFile.Write 438 "old".data "  \n".data).1
        = .ok []
    ∧ StringFile.Write 438 [] " hi ".data = ("hi".data, .ok 4) := by
  have h := C10_string_write_always_succeeds 438 "old".data "  \n".data
    (by decide)
  have h2 := C10_string_write_always_succeeds 438 [] " hi ".data (by decide)
  refine ⟨h.1.trans (by decide), (h.2.2 (by decide)).trans (by decide),
    h2.1.trans (by decide)⟩

/-- C2: evaluation of the current body-file variant at the claim's own
example.  The message directories built by the current `src/proxy.go`
tree (via `newReqListDir`/`newRespListDir` and the part_002 dir elements)
construct the body node with `newHTTPBodyFile(&e.Data.Body)` — no
content-length pointer — so its `ValWrite` replaces the stream with the
trimmed bytes but leaves the message's `ContentLength` cell untouched,
contradicting the struct's own doc comments.  After writing
`"longer body\n"` over a held body `"abc"` with content length 3, the
body reads back `"longer body"` but the sibling `contentlength` node
still renders `"3"`, not the `"11"` the claim requires. -/
theorem C2_current_body_write_leaves_contentlength_stale :
    HttpV2.messageBodyWrite 3 ⟨"abc".data⟩ "longer body\n".data
      = (3, ⟨"longer body".data⟩, 12)
    ∧ (∀ cl : Int, ∀ body : GoReader, ∀ data : Bytes,
        (HttpV2.messageBodyWrite cl body data).1 = cl)
    ∧ (HttpV2.httpBodyFile.ValRead
          (HttpV2.messageBodyWrite 3 ⟨"abc".data⟩ "longer body\n".data).2.1).1
        = .ok "longer body".data
    ∧ Int64File.ReadAll 438
          (HttpV2.messageBodyWrite 3 ⟨"abc".data⟩ "longer body\n".data).1
        = .ok "3".data
    ∧ "3".data ≠ "11".data := by
  exact ⟨by decide, fun _ _ _ => rfl, by decide, by decide, by decide⟩
